import Mathlib

/-!
Shallow embedding of the repository source `winregfs.py` (classes
`RegistryTree` and `WinRegFS`) together with the consumed interface of the
external `python-registry` library.

Conventions of the embedding:
* Python strings are Lean `String`; byte strings are also `String`
  (the source is Python 2, where `str` is the byte-string type).
* A parsed hive (a `Registry.Registry` object) is modelled by its root key
  `RegKey`; the consumed library interface (`open`, `subkeys`, `values`,
  `name`, `timestamp`, `value`, `value_type`, `value_type_str`) is modelled
  by `findKey`, `keyValue` and the `RegKey`/`RegValue` accessors.
* Python exceptions are modelled by `Except Err`: `Err.valueError` is the
  routine `ValueError` raised by `RegistryTree` methods, and
  `Err.attributeError` is the `AttributeError` that Python raises when a
  method is invoked on `None` (a hive slot whose load failed is stored as
  `None` by `_load_regfile`).
* `time.mktime(key.timestamp().timetuple())` is modelled by storing the
  timestamp of a key directly as seconds since the epoch.
* The `__loaded` flag of `RegistryTree` is not modelled: a `RegistryTree`
  value of the embedding is by construction the state after a successful
  `load` call (the claims treated here all concern post-load behaviour).
-/

/-! ### Python string primitives used by the source -/

/-- Python `s.strip(sep)` for a single separator character: remove every
leading and every trailing occurrence of the character. -/
def pyStrip (sep : Char) (s : String) : String :=
  (((s.data.dropWhile (· = sep)).reverse.dropWhile (· = sep)).reverse).asString

/-- Auxiliary worker for Python `split` with a maxsplit bound.
The first argument is the number of splits still allowed. -/
def pySplitAux (sep : Char) : Nat → List Char → List Char → List (List Char)
  | _, acc, [] => [acc.reverse]
  | 0, acc, rest => [acc.reverse ++ rest]
  | Nat.succ n, acc, c :: cs =>
    if c = sep then acc.reverse :: pySplitAux sep n [] cs
    else pySplitAux sep (Nat.succ n) (c :: acc) cs

/-- Python `s.split(sep, maxsplit)` for a single separator character.
Note Python returns `[""]` on the empty string. -/
def pySplit (sep : Char) (maxsplit : Nat) (s : String) : List String :=
  (pySplitAux sep maxsplit [] s.data).map List.asString

/-- Python `os.path.basename(p)` (posixpath): the part after the last slash. -/
def pyBasename (p : String) : String :=
  ((p.data.reverse.takeWhile (· ≠ '/')).reverse).asString

/-- Python `os.path.dirname(p)` (posixpath): the part up to and including
the last slash, with trailing slashes stripped unless the result consists
only of slashes. -/
def pyDirname (p : String) : String :=
  let head := (p.data.reverse.dropWhile (· ≠ '/')).reverse
  if head.all (· = '/') then head.asString
  else ((head.reverse.dropWhile (· = '/')).reverse).asString

/-- Python `s[offset:offset+size]` for natural offset and size. -/
def pySlice (s : String) (offset size : Nat) : String :=
  ((s.data.drop offset).take size).asString

/-- Python `str(b)` for a boolean. -/
def pyBoolStr (b : Bool) : String :=
  if b then "True" else "False"

/-! ### Data model: the consumed `python-registry` interface -/

/-- Registry value types known to `python-registry` (`Registry.RegSZ`,
`Registry.RegExpandSZ`, ...). `RegistryTree.bytestr` branches on a subset
of these; the remaining constructors exercise its fall-through branch. -/
inductive RegType where
  | RegSZ
  | RegExpandSZ
  | RegBin
  | RegDWord
  | RegMultiSZ
  | RegQWord
  | RegNone
  | RegBigEndian
  | RegLink
  | RegResourceList
  | RegFullResourceDescriptor
  | RegFileTime
deriving DecidableEq

/-- `Value.value_type_str()` of the consumed library: the textual name of
the value type. -/
def typeTagStr : RegType → String
  | .RegSZ => "RegSZ"
  | .RegExpandSZ => "RegExpandSZ"
  | .RegBin => "RegBin"
  | .RegDWord => "RegDWord"
  | .RegMultiSZ => "RegMultiSZ"
  | .RegQWord => "RegQWord"
  | .RegNone => "RegNone"
  | .RegBigEndian => "RegBigEndian"
  | .RegLink => "RegLink"
  | .RegResourceList => "RegResourceList"
  | .RegFullResourceDescriptor => "RegFullResourceDescriptor"
  | .RegFileTime => "RegFileTime"

/-- The dynamic Python payload returned by `Value.value()`: a text string
for `RegSZ`/`RegExpandSZ`, a list of strings for `RegMultiSZ`, an integer
for `RegDWord`/`RegQWord`, and a raw byte string for binary and unknown
types. -/
inductive RegData where
  | str (s : String)
  | strs (l : List String)
  | int (n : Int)
  | bytes (b : String)
deriving DecidableEq

/-- A registry value as returned by the consumed library:
`name()`, `value_type()` and `value()`. -/
structure RegValue where
  name : String
  vtype : RegType
  data : RegData
deriving DecidableEq

/-- A registry key as returned by the consumed library: `name()`,
`timestamp()` (modelled in seconds since the epoch), `subkeys()` and
`values()`. -/
inductive RegKey where
  | mk (name : String) (timestamp : Int) (subkeys : List RegKey)
      (values : List RegValue)

def RegKey.name : RegKey → String
  | .mk n _ _ _ => n

def RegKey.timestamp : RegKey → Int
  | .mk _ t _ _ => t

def RegKey.subkeys : RegKey → List RegKey
  | .mk _ _ s _ => s

def RegKey.values : RegKey → List RegValue
  | .mk _ _ _ v => v

/-- Worker for `findKey` with an explicit fuel argument (the fuel starts at
the length of the path, which bounds the recursion depth since every step
consumes at least one character of the path). -/
def findKeyAux : Nat → RegKey → List Char → Option RegKey
  | _, k, [] => some k
  | 0, _, _ => none
  | Nat.succ fuel, k, cs =>
    let pre := cs.takeWhile (· ≠ '\\')
    let suf := (cs.dropWhile (· ≠ '\\')).drop 1
    match k.subkeys.find? (fun c => c.name == pre.asString) with
    | some sub => findKeyAux fuel sub suf
    | none => none

/-- `Registry.open(path)` / `RegistryKey.find_key(path)` of the consumed
library: on the empty path return the key itself, otherwise partition the
path at the first backslash, descend into the named subkey and recurse on
the remainder; a missing subkey is the `RegistryStructureDoesNotExist`
outcome, modelled as `none`. -/
def findKey (k : RegKey) (path : String) : Option RegKey :=
  findKeyAux path.data.length k path.data

/-- `RegistryKey.value(name)` of the consumed library: look up a value of
the key by name; a missing name is the `RegistryStructureDoesNotExist`
outcome, modelled as `none`. -/
def keyValue (k : RegKey) (name : String) : Option RegValue :=
  k.values.find? (fun v => v.name == name)

/-! ### Errors -/

/-- Python exceptions that can leave a `RegistryTree` method.
`valueError` is the routine `ValueError`; `attributeError` is the
`AttributeError` raised when a method is called on a `None` hive slot. -/
inductive Err where
  | valueError
  | attributeError
deriving DecidableEq

/-! ### RegistryTree -/

/-- The store state of a loaded `RegistryTree`: either a single hive
(`self.reg`, `multifile = False`) or the two-level hive table
(`self.hives`, `multifile = True`).  A table entry of `none` is a slot
whose auxiliary load failed (`_load_regfile` stored `None`). -/
inductive TreeStores where
  | single (reg : RegKey)
  | multi (hives : List (String × List (String × Option RegKey)))

/-- The state of a `RegistryTree` after `load`, together with the two
configuration options of the engine. -/
structure RegistryTree where
  append_extensions : Bool
  append_newline : Bool
  stores : TreeStores

/-- `self.hives[g]`: the store table of a root group, or `none` when the
group name is unknown (Python `KeyError`). -/
def lookupGroup (hives : List (String × List (String × Option RegKey)))
    (g : String) : Option (List (String × Option RegKey)) :=
  (hives.find? (fun e => e.1 == g)).map (·.2)

/-- `self.hives[g][s]`: the slot of a store, or `none` when the group or
the store name is unknown (Python `KeyError`).  A result of `some none` is
a known slot whose hive failed to load. -/
def lookupStore (hives : List (String × List (String × Option RegKey)))
    (g s : String) : Option (Option RegKey) :=
  match lookupGroup hives g with
  | some grp => (grp.find? (fun e => e.1 == s)).map (·.2)
  | none => none

/-- `self.hives.keys()`: the root group names, in insertion order. -/
def groupNames (hives : List (String × List (String × Option RegKey))) :
    List String :=
  hives.map (·.1)

/-- `RegistryTree._path_to_regpath`: strip leading slashes and swap the
remaining slashes for backslashes. -/
def pathToRegpath (p : String) : String :=
  ((p.data.dropWhile (· = '/')).map
    (fun c => if c = '/' then '\\' else c)).asString

/-- `RegistryTree._filename_to_regvalue`: with extensions enabled, trim off
the extension (Python `name.rsplit(".", 1)[0]`, everything before the last
dot, or the whole name when it has no dot). -/
def filenameToRegvalue (append_extensions : Bool) (name : String) : String :=
  if append_extensions then
    if '.' ∈ name.data then
      (((name.data.reverse.dropWhile (· ≠ '.')).drop 1).reverse).asString
    else name
  else name

/-- The filesystem-visible leaf name of a value, as produced inside
`RegistryTree._items_for_reg`: the native name, with `"." + value_type_str`
appended when extensions are enabled. -/
def leafName (append_extensions : Bool) (v : RegValue) : String :=
  if append_extensions then v.name ++ "." ++ typeTagStr v.vtype
  else v.name

/-- `RegistryTree._parse_reg`: in multifile mode strip the slashes, split
into at most three parts, require three parts, and look the store slot up
in the hive table (a Python `KeyError` becomes `ValueError`); in
single-file mode pass the path through unchanged against the one store.
The returned first component is the raw slot content, which is `none`
exactly when the hive at that slot failed to load (Python then holds the
object `None`). -/
def RegistryTree.parseReg (t : RegistryTree) (p : String) :
    Except Err (Option RegKey × String) :=
  match t.stores with
  | .single r => .ok (some r, p)
  | .multi hives =>
    match pySplit '/' 2 (pyStrip '/' p) with
    | [hkey, regkey, sub] =>
      match lookupStore hives hkey regkey with
      | some slot => .ok (slot, sub)
      | none => .error .valueError
    | _ => .error .valueError

/-- `RegistryTree.key`: resolve a global path to a key object.  A slot that
failed to load is `None` in Python, so `reg.open` raises
`AttributeError`; a structurally missing key becomes `ValueError`. -/
def RegistryTree.key (t : RegistryTree) (p : String) : Except Err RegKey :=
  match t.parseReg p with
  | .error e => .error e
  | .ok (none, _) => .error .attributeError
  | .ok (some r, sub) =>
    match findKey r (pathToRegpath sub) with
    | some k => .ok k
    | none => .error .valueError

/-- `RegistryTree.value`: resolve a global path to a value object.  First
the path is opened as a key: success means the path is a key, which is
rejected with `ValueError`.  Otherwise the path is split into the parent
key path and the leaf name, the extension is trimmed from the leaf, the
parent key is opened and the value looked up by name; any failure in that
stage is `ValueError`. -/
def RegistryTree.value (t : RegistryTree) (p : String) : Except Err RegValue :=
  match t.parseReg p with
  | .error e => .error e
  | .ok (none, _) => .error .attributeError
  | .ok (some r, sub) =>
    match findKey r (pathToRegpath sub) with
    | some _ => .error .valueError
    | none =>
      match findKey r (pathToRegpath (pyDirname sub)) with
      | none => .error .valueError
      | some keyobj =>
        match keyValue keyobj
            (filenameToRegvalue t.append_extensions (pyBasename sub)) with
        | none => .error .valueError
        | some v => .ok v

/-! ### Typed value codec (`RegistryTree.bytestr`) -/

/-- The data types considered text (`RegistryTree.TEXT_TYPES`). -/
def TEXT_TYPES : List RegType :=
  [.RegSZ, .RegExpandSZ, .RegMultiSZ, .RegDWord, .RegQWord]

/-- Python `str(data)` on the payloads the registry library returns.  For a
payload whose shape matches the declared value type this is exact; a list
payload uses a simplified Python repr (quote escaping inside elements is
not modelled, since the parser never feeds a list to a plain `str()` branch
of `bytestr`). -/
def pyStr : RegData → String
  | .str s => s
  | .int n => toString n
  | .strs l =>
    "[" ++ String.intercalate ", " (l.map (fun s => "\x27" ++ s ++ "\x27")) ++ "]"
  | .bytes b => b

/-- Python `"\n".join(data)`.  On a list of strings it intercalates; on a
string it intercalates the characters (Python iterates a string by
character); on an integer Python raises `TypeError`, which the parser can
never trigger here, so that branch is mapped to the empty string. -/
def pyJoinNL : RegData → String
  | .strs l => String.intercalate "\n" l
  | .str s => String.intercalate "\n" (s.data.map (fun c => String.mk [c]))
  | .bytes b => String.intercalate "\n" (b.data.map (fun c => String.mk [c]))
  | .int _ => ""

/-- The raw payload, returned unmodified (the `RegBin`, `RegNone` and
fall-through branches of `bytestr`).  Byte and text payloads pass through;
the parser never yields a list or integer payload for these types, so those
branches are mapped to the empty string. -/
def rawStr : RegData → String
  | .bytes b => b
  | .str s => s
  | .strs _ => ""
  | .int _ => ""

/-- The per-type rendering chain of `RegistryTree.bytestr` (before the
newline policy): string types via `str`, multi-strings joined with
newlines, integers via `str`, everything else left alone. -/
def renderData (t : RegType) (d : RegData) : String :=
  if t = .RegSZ ∨ t = .RegExpandSZ then pyStr d
  else if t = .RegMultiSZ then pyStr (.str (pyJoinNL d))
  else if t = .RegDWord ∨ t = .RegQWord then pyStr d
  else rawStr d

/-- The trailing-newline policy of `bytestr`: append one newline when the
option is on, the type is a text type, and the rendering is non-empty and
does not already end in a newline. -/
def applyNewline (append_newline : Bool) (t : RegType) (data : String) :
    String :=
  if append_newline = true ∧ t ∈ TEXT_TYPES ∧ data ≠ "" ∧
      data.data.getLast? ≠ some '\n'
  then data ++ "\n" else data

/-- The value-level byte codec: rendering chain followed by the newline
policy.  `RegistryTree.bytestr` is this applied to the resolved value. -/
def bytestrOfValue (append_newline : Bool) (v : RegValue) : String :=
  applyNewline append_newline v.vtype (renderData v.vtype v.data)

/-- `RegistryTree.bytestr`: resolve the path to a value and render it. -/
def RegistryTree.bytestr (t : RegistryTree) (p : String) : Except Err String :=
  match t.value p with
  | .ok v => .ok (bytestrOfValue t.append_newline v)
  | .error e => .error e

/-! ### Listing (`RegistryTree.items`) -/

/-- `RegistryTree._items_for_reg`: open the key at the subpath and list the
names of its subkeys followed by the leaf names of its values.  The slot
argument is the raw hive slot: a failed slot is `None`, on which `reg.open`
raises `AttributeError`. -/
def itemsForReg (append_extensions : Bool) (slot : Option RegKey)
    (p : String) : Except Err (List String) :=
  match slot with
  | none => .error .attributeError
  | some r =>
    match findKey r (pathToRegpath p) with
    | none => .error .valueError
    | some k =>
      .ok (k.subkeys.map RegKey.name ++ k.values.map (leafName append_extensions))

/-- `RegistryTree.items`: in multifile mode decompose the path (strip the
slashes, split into at most three parts) and dispatch on the number of
parts: three parts select a store and residual subpath, two parts select
the root of a store (residual `/`), one non-empty part lists the store
names of a group, and otherwise the group names are listed.  In single-file
mode list directly against the one store.  (The split yields between one
and three parts; the impossible shapes fall through to the group listing,
mirroring the final `return` of the Python code.) -/
def RegistryTree.items (t : RegistryTree) (p : String) :
    Except Err (List String) :=
  match t.stores with
  | .multi hives =>
    match pySplit '/' 2 (pyStrip '/' p) with
    | [hkey, regkey, subpath] =>
      match lookupStore hives hkey regkey with
      | some slot => itemsForReg t.append_extensions slot subpath
      | none => .error .valueError
    | [hkey, regkey] =>
      match lookupStore hives hkey regkey with
      | some slot => itemsForReg t.append_extensions slot "/"
      | none => .error .valueError
    | [hkey] =>
      if hkey ≠ "" then
        match lookupGroup hives hkey with
        | some grp => .ok (grp.map (·.1))
        | none => .error .valueError
      else .ok (groupNames hives)
    | _ => .ok (groupNames hives)
  | .single r => itemsForReg t.append_extensions (some r) p

/-! ### Attribute projection (`RegistryTree.stat`) -/

def S_IFDIR : Nat := 0o40000
def S_IFREG : Nat := 0o100000

/-- The stat record built by `RegistryTree.stat`
(`_reg_object_stat` returns it as a dict). -/
structure StatRec where
  st_mode : Nat
  st_ino : Nat
  st_dev : Nat
  st_nlink : Nat
  st_uid : Nat
  st_gid : Nat
  st_size : Nat
  st_atime : Int
  st_mtime : Int
  st_ctime : Int
deriving DecidableEq

/-- `RegistryTree._reg_object_stat`: the directory defaults. -/
def regObjectStat : StatRec :=
  { st_mode := S_IFDIR ||| 0o755
    st_ino := 0
    st_dev := 0
    st_nlink := 2
    st_uid := 0
    st_gid := 0
    st_size := 0
    st_atime := 0
    st_mtime := 0
    st_ctime := 0 }

/-- `RegistryTree.stat`: try `items`; if that raises `ValueError` the path
is treated as a value and the record becomes a regular file sized by the
byte rendering; otherwise the directory defaults are kept and, when the
path is also a real key, its timestamp becomes the modification time
(`except ValueError: pass` keeps the default for the synthetic composite
directories).  Exceptions other than `ValueError` propagate. -/
def RegistryTree.stat (t : RegistryTree) (p : String) : Except Err StatRec :=
  match t.items p with
  | .ok _ =>
    match t.key p with
    | .ok k => .ok { regObjectStat with st_mtime := k.timestamp }
    | .error .valueError => .ok regObjectStat
    | .error e => .error e
  | .error .valueError =>
    match t.bytestr p with
    | .ok data =>
      .ok { regObjectStat with
              st_mode := S_IFREG ||| 0o644
              st_nlink := 1
              st_size := data.length }
    | .error e => .error e
  | .error e => .error e

/-! ### Loading (`RegistryTree.load` in directory mode) -/

/-- The parse outcomes of the five hive files `load` looks for in a config
directory: `some root` models a file that parsed, `none` a file that was
missing or malformed (the exception swallowed by `_load_regfile`). -/
structure ConfigDir where
  system : Option RegKey
  sam : Option RegKey
  security : Option RegKey
  software : Option RegKey
  hku_default : Option RegKey

/-- The hive table built by `load` for a config directory: the five fixed
root groups in insertion order, with the `HKLM` and `HKU` slots filled by
`_load_regfile` (a failed auxiliary load occupies its slot with `none`). -/
def loadHives (d : ConfigDir) (sys : RegKey) :
    List (String × List (String × Option RegKey)) :=
  [("HKCR", []),
   ("HKCU", []),
   ("HKLM", [("SYSTEM", some sys), ("SAM", d.sam),
             ("SECURITY", d.security), ("SOFTWARE", d.software)]),
   ("HKU", [(".DEFAULT", d.hku_default)]),
   ("HKCC", [])]

/-- The directory branch of `RegistryTree.load`: the `SYSTEM` hive is
loaded strictly (its failure aborts the whole load with `ValueError`),
every auxiliary hive is loaded leniently (failure records the slot as
absent and loading continues). -/
def RegistryTree.loadDir (append_extensions append_newline : Bool)
    (d : ConfigDir) : Except Err RegistryTree :=
  match d.system with
  | some sys =>
    .ok { append_extensions := append_extensions
          append_newline := append_newline
          stores := .multi (loadHives d sys) }
  | none => .error .valueError

/-! ### Decidability of result comparison -/

instance {ε α : Type} [DecidableEq ε] [DecidableEq α] :
    DecidableEq (Except ε α)
  | .ok a, .ok b =>
    decidable_of_iff (a = b)
      (by constructor
          · intro h; rw [h]
          · intro h; injection h)
  | .ok _, .error _ => .isFalse (fun h => Except.noConfusion h)
  | .error _, .ok _ => .isFalse (fun h => Except.noConfusion h)
  | .error e, .error f =>
    decidable_of_iff (e = f)
      (by constructor
          · intro h; rw [h]
          · intro h; injection h)

/-! ### Sample stores used as concrete inputs -/

def vCurrent : RegValue :=
  { name := "Current", vtype := .RegDWord, data := .int 3 }

def vDefaultSZ : RegValue :=
  { name := "(default)", vtype := .RegSZ, data := .str "Windows Explorer" }

def kSelect : RegKey := .mk "Select" 1305848118 [] [vCurrent]

def kExplorer : RegKey := .mk "Explorer" 1305848118 [] [vDefaultSZ]

def kRoot : RegKey := .mk "ROOT" 7 [kSelect, kExplorer] []

/-- A single-file tree (the default option values of `RegistryTree`). -/
def sampleSingle : RegistryTree :=
  { append_extensions := true, append_newline := true, stores := .single kRoot }

/-- A config directory whose `SYSTEM` hive parsed and whose auxiliary hives
all failed to load. -/
def sampleDir : ConfigDir :=
  { system := some kRoot, sam := none, security := none, software := none,
    hku_default := none }

/-- The multifile tree that `loadDir` builds from `sampleDir`. -/
def sampleMulti : RegistryTree :=
  { append_extensions := true, append_newline := true,
    stores := .multi (loadHives sampleDir kRoot) }

/-! ### Helper lemmas on strings and lists -/

lemma string_data_append (a b : String) : (a ++ b).data = a.data ++ b.data :=
  rfl

lemma asString_data (s : String) : s.data.asString = s :=
  rfl

lemma data_asString (l : List Char) : l.asString.data = l :=
  rfl

lemma dropWhile_append_of_all {p : Char → Bool} (xs ys : List Char)
    (h : ∀ c ∈ xs, p c = true) :
    (xs ++ ys).dropWhile p = ys.dropWhile p := by
  induction xs with
  | nil => rfl
  | cons a l ih =>
    simp only [List.cons_append, List.dropWhile_cons]
    rw [h a (List.mem_cons_self a l)]
    exact ih (fun c hc => h c (List.mem_cons_of_mem a hc))

lemma typeTagStr_no_dot (t : RegType) : '.' ∉ (typeTagStr t).data := by
  cases t <;> decide

/-- The extension-trimming step inverts the extension-appending step: a
trailing component without dots is removed exactly. -/
lemma rsplit_appended (a tag : String) (htag : '.' ∉ tag.data) :
    filenameToRegvalue true (a ++ "." ++ tag) = a := by
  have hdata : (a ++ "." ++ tag).data = a.data ++ '.' :: tag.data := by
    simp [string_data_append]
  have hmem : '.' ∈ (a ++ "." ++ tag).data := by
    rw [hdata]
    exact List.mem_append_right _ (List.mem_cons_self _ _)
  unfold filenameToRegvalue
  rw [if_pos rfl, if_pos hmem, hdata]
  have hrev : (a.data ++ '.' :: tag.data).reverse =
      tag.data.reverse ++ '.' :: a.data.reverse := by
    simp
  rw [hrev, dropWhile_append_of_all]
  · have : List.dropWhile (fun c => decide (c ≠ '.')) ('.' :: a.data.reverse) =
        '.' :: a.data.reverse := by
      rw [List.dropWhile_cons]
      simp
    rw [this]
    simp [asString_data]
  · intro c hc
    have : c ≠ '.' := by
      intro h
      exact htag (by simpa [h] using List.mem_reverse.mp hc)
    simpa using this

/-- C2: for every value node, the codec renders the typed payload per the
policy table (string types as-is, multi-strings joined by newlines,
integers as decimal text, binary and unknown types untouched), and the
append-newline option appends exactly one trailing newline only for
text-like types whose non-empty rendering does not already end in a
newline; binary and unknown types and empty renderings are never
altered. -/
theorem C2_codec_policy (append_newline : Bool) (nm : String) (t : RegType)
    (d : RegData) (s : String) (l : List String) (i : Int) (b : String) :
    (renderData .RegSZ (.str s) = s) ∧
    (renderData .RegExpandSZ (.str s) = s) ∧
    (renderData .RegMultiSZ (.strs l) = String.intercalate "\n" l) ∧
    (renderData .RegDWord (.int i) = toString i) ∧
    (renderData .RegQWord (.int i) = toString i) ∧
    (renderData .RegBin (.bytes b) = b) ∧
    (renderData .RegNone (.bytes b) = b) ∧
    (t ∉ TEXT_TYPES → renderData t (.bytes b) = b) ∧
    (append_newline = true → t ∈ TEXT_TYPES → renderData t d ≠ "" →
      (renderData t d).data.getLast? ≠ some '\n' →
      bytestrOfValue append_newline ⟨nm, t, d⟩ = renderData t d ++ "\n") ∧
    (append_newline = false →
      bytestrOfValue append_newline ⟨nm, t, d⟩ = renderData t d) ∧
    (t ∉ TEXT_TYPES →
      bytestrOfValue append_newline ⟨nm, t, d⟩ = renderData t d) ∧
    ((renderData t d).data.getLast? = some '\n' →
      bytestrOfValue append_newline ⟨nm, t, d⟩ = renderData t d) ∧
    (renderData t d = "" →
      bytestrOfValue append_newline ⟨nm, t, d⟩ = renderData t d) := by
  refine ⟨by simp [renderData, pyStr], by simp [renderData, pyStr],
    by simp [renderData, pyStr, pyJoinNL], by simp [renderData, pyStr],
    by simp [renderData, pyStr], by simp [renderData, rawStr],
    by simp [renderData, rawStr], ?_, ?_, ?_, ?_, ?_, ?_⟩
  · intro h
    simp only [TEXT_TYPES, List.mem_cons, List.mem_singleton] at h
    push_neg at h
    obtain ⟨h1, h2, h3, h4, h5⟩ := h
    simp [renderData, rawStr, h1, h2, h3, h4, h5]
  · intro hnl ht hne hlast
    unfold bytestrOfValue applyNewline
    rw [if_pos ⟨hnl, ht, hne, hlast⟩]
  · intro hnl
    simp [bytestrOfValue, applyNewline, hnl]
  · intro ht
    unfold bytestrOfValue applyNewline
    rw [if_neg (fun hc => ht hc.2.1)]
  · intro hlast
    unfold bytestrOfValue applyNewline
    rw [if_neg (fun hc => hc.2.2.2 hlast)]
  · intro hempty
    unfold bytestrOfValue applyNewline
    rw [if_neg (fun hc => hc.2.2.1 hempty)]

theorem C2_codec_policy_witness :
    bytestrOfValue true ⟨"(default)", .RegSZ, .str "Windows Explorer"⟩ =
      "Windows Explorer\n" := by
  have h := (C2_codec_policy true "(default)" .RegSZ (.str "Windows Explorer")
    "" [] 0 "").2.2.2.2.2.2.2.2.1 rfl (by decide) (by decide) (by decide)
  simpa using h

/-! ### C3: newline round trip -/

/-- A byte string ends with exactly one trailing newline. -/
def endsWithOneNL (s : String) : Prop :=
  s.data.getLast? = some '\n' ∧ s.data.dropLast.getLast? ≠ some '\n'

/-- Remove the final character (used to state the stripping direction). -/
def stripLastChar (s : String) : String :=
  s.data.dropLast.asString

instance (s : String) : Decidable (endsWithOneNL s) := by
  unfold endsWithOneNL
  infer_instance

/-- C3 (counterexample): the claim fails as stated.  For the text-like
value of type `RegSZ` holding the empty string, the codec output with
append-newline enabled is the empty string (the code never pads an empty
rendering), which does not end with a newline at all. -/
theorem C3_counterexample :
    ¬ (∀ v : RegValue, v.vtype ∈ TEXT_TYPES →
        endsWithOneNL (bytestrOfValue true v) ∧
        bytestrOfValue false v = stripLastChar (bytestrOfValue true v)) := by
  intro h
  have hv := h ⟨"Empty", .RegSZ, .str ""⟩ (by decide)
  exact absurd hv.1 (by decide)

/-- C3 (amended): for every text-like value whose base rendering is
non-empty and does not already end in a newline, the codec output with
append-newline enabled ends with exactly one newline, and the output with
append-newline disabled equals the enabled output stripped of exactly that
trailing newline. -/
theorem C3_newline_roundtrip (v : RegValue) (ht : v.vtype ∈ TEXT_TYPES)
    (hne : renderData v.vtype v.data ≠ "")
    (hnl : (renderData v.vtype v.data).data.getLast? ≠ some '\n') :
    endsWithOneNL (bytestrOfValue true v) ∧
    bytestrOfValue false v = stripLastChar (bytestrOfValue true v) := by
  have htrue : bytestrOfValue true v = renderData v.vtype v.data ++ "\n" := by
    unfold bytestrOfValue applyNewline
    rw [if_pos ⟨rfl, ht, hne, hnl⟩]
  have hfalse : bytestrOfValue false v = renderData v.vtype v.data := by
    simp [bytestrOfValue, applyNewline]
  have hdata : (bytestrOfValue true v).data =
      (renderData v.vtype v.data).data ++ ['\n'] := by
    rw [htrue, string_data_append]
  constructor
  · constructor
    · rw [hdata, List.getLast?_concat]
    · rw [hdata, List.dropLast_concat]
      exact hnl
  · rw [hfalse]
    unfold stripLastChar
    rw [hdata, List.dropLast_concat, asString_data]

theorem C3_newline_roundtrip_witness :
    endsWithOneNL (bytestrOfValue true ⟨"Current", .RegDWord, .int 3⟩) ∧
    bytestrOfValue false ⟨"Current", .RegDWord, .int 3⟩ =
      stripLastChar (bytestrOfValue true ⟨"Current", .RegDWord, .int 3⟩) :=
  C3_newline_roundtrip ⟨"Current", .RegDWord, .int 3⟩ (by decide) (by decide)
    (by decide)

/-! ### C4: leaf names and extension stripping -/

/-- C4: for every value, with extension-appending enabled the
filesystem-visible leaf name is the native name followed by a dot and the
textual type tag, and the resolver's tag-stripping step applied to that
leaf name gives back the native name; with extension-appending disabled
the leaf name is the native name verbatim and the stripping step is the
identity. -/
theorem C4_leafname_roundtrip (v : RegValue) :
    leafName true v = v.name ++ "." ++ typeTagStr v.vtype ∧
    filenameToRegvalue true (leafName true v) = v.name ∧
    leafName false v = v.name ∧
    filenameToRegvalue false (leafName false v) = v.name := by
  refine ⟨by simp [leafName], ?_, by simp [leafName], by simp [filenameToRegvalue, leafName]⟩
  have h : leafName true v = v.name ++ "." ++ typeTagStr v.vtype := by
    simp [leafName]
  rw [h]
  exact rsplit_appended v.name (typeTagStr v.vtype) (typeTagStr_no_dot v.vtype)

/-! ### Resolver helper lemmas -/

lemma key_ok_elim {t : RegistryTree} {p : String} {k : RegKey}
    (h : t.key p = .ok k) :
    ∃ r sub, t.parseReg p = .ok (some r, sub) ∧
      findKey r (pathToRegpath sub) = some k := by
  cases hpr : t.parseReg p with
  | error e => simp [RegistryTree.key, hpr] at h
  | ok pr =>
    obtain ⟨slot, sub⟩ := pr
    cases slot with
    | none => simp [RegistryTree.key, hpr] at h
    | some r =>
      cases hf : findKey r (pathToRegpath sub) with
      | none => simp [RegistryTree.key, hpr, hf] at h
      | some k2 =>
        have hk : k2 = k := by simpa [RegistryTree.key, hpr, hf] using h
        subst hk
        exact ⟨r, sub, rfl, hf⟩

lemma value_ok_elim {t : RegistryTree} {p : String} {v : RegValue}
    (h : t.value p = .ok v) :
    ∃ r sub, t.parseReg p = .ok (some r, sub) ∧
      findKey r (pathToRegpath sub) = none := by
  cases hpr : t.parseReg p with
  | error e => simp [RegistryTree.value, hpr] at h
  | ok pr =>
    obtain ⟨slot, sub⟩ := pr
    cases slot with
    | none => simp [RegistryTree.value, hpr] at h
    | some r =>
      cases hf : findKey r (pathToRegpath sub) with
      | some k2 => simp [RegistryTree.value, hpr, hf] at h
      | none => exact ⟨r, sub, rfl, hf⟩

lemma key_ok_value {t : RegistryTree} {p : String} {k : RegKey}
    (h : t.key p = .ok k) : t.value p = .error .valueError := by
  obtain ⟨r, sub, hpr, hf⟩ := key_ok_elim h
  simp [RegistryTree.value, hpr, hf]

lemma value_ok_key {t : RegistryTree} {p : String} {v : RegValue}
    (h : t.value p = .ok v) : t.key p = .error .valueError := by
  obtain ⟨r, sub, hpr, hf⟩ := value_ok_elim h
  simp [RegistryTree.key, hpr, hf]

lemma items_of_parse_ok {t : RegistryTree} {p : String} {slot : Option RegKey}
    {sub : String} (h : t.parseReg p = .ok (slot, sub)) :
    t.items p = itemsForReg t.append_extensions slot sub := by
  obtain ⟨ae, an, st⟩ := t
  cases st with
  | single r =>
    simp only [RegistryTree.parseReg, Except.ok.injEq, Prod.mk.injEq] at h
    obtain ⟨h1, h2⟩ := h
    subst h1
    subst h2
    simp [RegistryTree.items]
  | multi hives =>
    simp only [RegistryTree.parseReg] at h
    cases hs : pySplit '/' 2 (pyStrip '/' p) with
    | nil => simp [hs] at h
    | cons a l1 =>
      cases l1 with
      | nil => simp [hs] at h
      | cons b l2 =>
        cases l2 with
        | nil => simp [hs] at h
        | cons c l3 =>
          cases l3 with
          | cons d l4 => simp [hs] at h
          | nil =>
            rw [hs] at h
            cases hl : lookupStore hives a b with
            | none => simp [hl] at h
            | some slot2 =>
              simp only [hl, Except.ok.injEq, Prod.mk.injEq] at h
              obtain ⟨h1, h2⟩ := h
              subst h1
              subst h2
              simp [RegistryTree.items, hs, hl]

lemma key_ok_items {t : RegistryTree} {p : String} {k : RegKey}
    (h : t.key p = .ok k) :
    t.items p = .ok (k.subkeys.map RegKey.name ++
      k.values.map (leafName t.append_extensions)) := by
  obtain ⟨r, sub, hpr, hf⟩ := key_ok_elim h
  rw [items_of_parse_ok hpr]
  simp [itemsForReg, hf]

lemma value_ok_items {t : RegistryTree} {p : String} {v : RegValue}
    (h : t.value p = .ok v) : t.items p = .error .valueError := by
  obtain ⟨r, sub, hpr, hf⟩ := value_ok_elim h
  rw [items_of_parse_ok hpr]
  simp [itemsForReg, hf]

lemma bytestr_of_value_ok {t : RegistryTree} {p : String} {v : RegValue}
    (h : t.value p = .ok v) :
    t.bytestr p = .ok (bytestrOfValue t.append_newline v) := by
  simp [RegistryTree.bytestr, h]

lemma bytestr_of_value_error {t : RegistryTree} {p : String} {e : Err}
    (h : t.value p = .error e) : t.bytestr p = .error e := by
  simp [RegistryTree.bytestr, h]

/-! ### C5: key and value resolution are mutually exclusive -/

/-- C5: for every loaded store and every path, resolution yields at most
one node kind: a path the store recognises as a key is not resolvable as a
value (value lookup fails with the routine error), and a path resolving to
a value is not resolvable as a key (key lookup fails with the routine
error). -/
theorem C5_kind_exclusive (t : RegistryTree) (p : String) :
    (∀ k, t.key p = .ok k → t.value p = .error .valueError) ∧
    (∀ v, t.value p = .ok v → t.key p = .error .valueError) :=
  ⟨fun _ h => key_ok_value h, fun _ h => value_ok_key h⟩

theorem C5_kind_exclusive_witness :
    sampleSingle.value "/Select" = .error .valueError :=
  (C5_kind_exclusive sampleSingle "/Select").1 kSelect rfl

/-! ### C6: attribute records -/

/-- C6: a path resolving to a key gets the directory attribute record
(mode `S_IFDIR | 0o755`, link count 2, size 0, all times 0) with the
modification time set to the stored timestamp of the key; a path resolving
to a value gets the regular-file record (mode `S_IFREG | 0o644`, link
count 1, size the byte length of the codec rendering, all times 0); the
synthetic composite directories of multifile mode (the root and a known
group) get the unmodified directory defaults, in particular modification
time 0. -/
theorem C6_attribute_records (t : RegistryTree) (p : String) :
    (∀ k, t.key p = .ok k →
      t.stat p = .ok { regObjectStat with st_mtime := k.timestamp }) ∧
    (∀ v, t.value p = .ok v →
      t.stat p = .ok { regObjectStat with
        st_mode := S_IFREG ||| 0o644
        st_nlink := 1
        st_size := (bytestrOfValue t.append_newline v).length }) ∧
    (∀ hives, t.stores = .multi hives → pyStrip '/' p = "" →
      t.stat p = .ok regObjectStat) ∧
    (∀ hives g grp, t.stores = .multi hives →
      pySplit '/' 2 (pyStrip '/' p) = [g] → g ≠ "" →
      lookupGroup hives g = some grp → t.stat p = .ok regObjectStat) := by
  refine ⟨?_, ?_, ?_, ?_⟩
  · intro k hk
    have hi := key_ok_items hk
    simp [RegistryTree.stat, hi, hk]
  · intro v hv
    have hi := value_ok_items hv
    have hb := bytestr_of_value_ok hv
    simp [RegistryTree.stat, hi, hb]
  · intro hives hm hstrip
    obtain ⟨ae, an, st⟩ := t
    simp only at hm
    subst hm
    have hsp : pySplit '/' 2 (pyStrip '/' p) = [""] := by
      rw [hstrip]
      rfl
    have hi : (RegistryTree.mk ae an (.multi hives)).items p =
        .ok (groupNames hives) := by
      simp [RegistryTree.items, hsp]
    have hk : (RegistryTree.mk ae an (.multi hives)).key p =
        .error .valueError := by
      simp [RegistryTree.key, RegistryTree.parseReg, hsp]
    simp [RegistryTree.stat, hi, hk]
  · intro hives g grp hm hsplit hg hgrp
    obtain ⟨ae, an, st⟩ := t
    simp only at hm
    subst hm
    have hi : (RegistryTree.mk ae an (.multi hives)).items p =
        .ok (grp.map (·.1)) := by
      simp [RegistryTree.items, hsplit, hg, hgrp]
    have hk : (RegistryTree.mk ae an (.multi hives)).key p =
        .error .valueError := by
      simp [RegistryTree.key, RegistryTree.parseReg, hsplit]
    simp [RegistryTree.stat, hi, hk]

theorem C6_attribute_records_witness :
    sampleSingle.stat "/Select" =
      .ok { regObjectStat with st_mtime := 1305848118 } ∧
    sampleSingle.stat "/Select/Current.RegDWord" =
      .ok { regObjectStat with
        st_mode := S_IFREG ||| 0o644
        st_nlink := 1
        st_size := 2 } ∧
    sampleMulti.stat "/" = .ok regObjectStat :=
  ⟨(C6_attribute_records sampleSingle "/Select").1 kSelect rfl,
   (C6_attribute_records sampleSingle "/Select/Current.RegDWord").2.1 vCurrent
     rfl,
   (C6_attribute_records sampleMulti "/").2.2.1 (loadHives sampleDir kRoot)
     rfl rfl⟩

/-! ### WinRegFS: the filesystem adapter -/

/-- Transport error codes raised through `fuse.FuseOSError` by the
adapter. -/
inductive FuseCode where
  | ENOENT
  | EISDIR
  | ENOATTR
deriving DecidableEq

/-- Outcome vocabulary of an adapter operation: either a converted
transport error (`fuse.FuseOSError`) or a Python exception that escaped
the adapter unhandled. -/
inductive AdapterErr where
  | fuseError (c : FuseCode)
  | unhandled (e : Err)
deriving DecidableEq

/-- The extended-attribute table `WinRegFS.XATTRS`: the data-type name
(`get_value_str`) and the text-likeness flag (`get_is_text`); any other
attribute name is a Python `KeyError`, modelled as `none`. -/
def xattrLookup (name : String) (v : RegValue) : Option String :=
  if name = "user.registry.datatype" then some (typeTagStr v.vtype)
  else if name = "user.registry.text" then
    some (pyBoolStr (decide (v.vtype ∈ TEXT_TYPES)))
  else none

/-- `WinRegFS.getattr`: `stat`, converting `ValueError` to `ENOENT` and
applying the uid/gid of the FUSE context; any other exception escapes. -/
def WinRegFS.getattr (t : RegistryTree) (uid gid : Nat) (p : String) :
    Except AdapterErr StatRec :=
  match t.stat p with
  | .ok st => .ok { st with st_uid := uid, st_gid := gid }
  | .error .valueError => .error (.fuseError .ENOENT)
  | .error e => .error (.unhandled e)

/-- `WinRegFS.readdir`: dot entries followed by `items`.  The source has
no handler here, so every exception of `items` escapes the adapter. -/
def WinRegFS.readdir (t : RegistryTree) (p : String) :
    Except AdapterErr (List String) :=
  match t.items p with
  | .ok its => .ok ("." :: ".." :: its)
  | .error e => .error (.unhandled e)

/-- `WinRegFS.read`: render the value and return the requested byte
window (Python slice `data[offset:offset+size]`), converting `ValueError`
to `EISDIR`; any other exception escapes. -/
def WinRegFS.read (t : RegistryTree) (p : String) (size offset : Nat) :
    Except AdapterErr String :=
  match t.bytestr p with
  | .ok data => .ok (pySlice data offset size)
  | .error .valueError => .error (.fuseError .EISDIR)
  | .error e => .error (.unhandled e)

/-- `WinRegFS.getxattr` (the branch where the platform has `ENOATTR`):
when `items` succeeds the path is a directory and the lookup falls
through to `ENOATTR`; when `items` raises `ValueError` the path is
treated as a value via `self.tree.value(path)` - a call made outside any
handler, so its `ValueError` (missing path) escapes the adapter - and an
unknown attribute name falls through to `ENOATTR`. -/
def WinRegFS.getxattr (t : RegistryTree) (p name : String) :
    Except AdapterErr String :=
  match t.items p with
  | .ok _ => .error (.fuseError .ENOATTR)
  | .error .valueError =>
    match t.value p with
    | .ok v =>
      match xattrLookup name v with
      | some s => .ok s
      | none => .error (.fuseError .ENOATTR)
    | .error e => .error (.unhandled e)
  | .error e => .error (.unhandled e)

/-- `WinRegFS.listxattr` (the branch where the platform has `ENOATTR`):
an empty list when `items` succeeds (directories), the two attribute
names when `items` raises `ValueError` (anything treated as a value);
any other exception escapes. -/
def WinRegFS.listxattr (t : RegistryTree) (p : String) :
    Except AdapterErr (List String) :=
  match t.items p with
  | .ok _ => .ok []
  | .error .valueError => .ok ["user.registry.datatype", "user.registry.text"]
  | .error e => .error (.unhandled e)

/-! ### C9: read windows -/

/-- C9: for a path resolving to a value, `read` returns the codec
rendering windowed at the given offset and length (clamped to the
available bytes), and an offset at or beyond the content length yields an
empty result rather than an error; for a path resolving to a key, `read`
signals `EISDIR`. -/
theorem C9_read_window (t : RegistryTree) (p : String) (size offset : Nat) :
    (∀ v, t.value p = .ok v →
      WinRegFS.read t p size offset =
        .ok (pySlice (bytestrOfValue t.append_newline v) offset size) ∧
      ((bytestrOfValue t.append_newline v).length ≤ offset →
        WinRegFS.read t p size offset = .ok "")) ∧
    (∀ k, t.key p = .ok k →
      WinRegFS.read t p size offset = .error (.fuseError .EISDIR)) := by
  constructor
  · intro v hv
    have hb := bytestr_of_value_ok hv
    constructor
    · simp [WinRegFS.read, hb]
    · intro hoff
      have hnil : (bytestrOfValue t.append_newline v).data.drop offset = [] :=
        List.drop_eq_nil_of_le hoff
      simp [WinRegFS.read, hb, pySlice, hnil]
      rfl
  · intro k hk
    have hv := key_ok_value hk
    have hb := bytestr_of_value_error hv
    simp [WinRegFS.read, hb]

theorem C9_read_window_witness :
    WinRegFS.read sampleSingle "/Select/Current.RegDWord" 5 0 = .ok "3\n" ∧
    WinRegFS.read sampleSingle "/Select/Current.RegDWord" 5 10 = .ok "" ∧
    WinRegFS.read sampleSingle "/Select" 5 0 = .error (.fuseError .EISDIR) :=
  ⟨((C9_read_window sampleSingle "/Select/Current.RegDWord" 5 0).1 vCurrent
      rfl).1,
   ((C9_read_window sampleSingle "/Select/Current.RegDWord" 5 10).1 vCurrent
      rfl).2 (by decide),
   (C9_read_window sampleSingle "/Select" 5 0).2 kSelect rfl⟩

/-! ### C8: adapter error conversion -/

/-- C8 (counterexample): the claim fails as stated.  At a path where no
key or value exists, `getxattr` calls `self.tree.value(path)` outside any
handler, so the routine `ValueError` escapes the adapter unconverted; and
`readdir` has no handler at all, so both a missing path and a value path
make the routine error escape instead of becoming a transport error. -/
theorem C8_counterexample :
    WinRegFS.getxattr sampleSingle "/does/not/exist" "user.registry.datatype" =
      .error (.unhandled .valueError) ∧
    WinRegFS.readdir sampleSingle "/does/not/exist" =
      .error (.unhandled .valueError) ∧
    WinRegFS.readdir sampleSingle "/Select/Current.RegDWord" =
      .error (.unhandled .valueError) ∧
    (AdapterErr.unhandled .valueError ≠ .fuseError .ENOENT) ∧
    (AdapterErr.unhandled .valueError ≠ .fuseError .EISDIR) :=
  ⟨rfl, rfl, rfl, by decide, by decide⟩

/-- C8 (amended): the conversion policy the adapter actually implements.
`getattr` converts the routine error to `ENOENT` and `read` converts it to
`EISDIR`; `readdir` performs no conversion, so every error of `items`
escapes unhandled; `getxattr` converts to `ENOATTR` for directory paths
and for unknown attribute names on value paths, but at a path where the
value lookup itself raises the routine error, that error escapes
unhandled; `listxattr` absorbs the routine error by returning the two
attribute names. -/
theorem C8_error_conversion (t : RegistryTree) (p nm : String)
    (uid gid size offset : Nat) :
    (t.stat p = .error .valueError →
      WinRegFS.getattr t uid gid p = .error (.fuseError .ENOENT)) ∧
    (t.bytestr p = .error .valueError →
      WinRegFS.read t p size offset = .error (.fuseError .EISDIR)) ∧
    (∀ e, t.items p = .error e →
      WinRegFS.readdir t p = .error (.unhandled e)) ∧
    (∀ l, t.items p = .ok l →
      WinRegFS.getxattr t p nm = .error (.fuseError .ENOATTR)) ∧
    (t.items p = .error .valueError → t.value p = .error .valueError →
      WinRegFS.getxattr t p nm = .error (.unhandled .valueError)) ∧
    (∀ v s, t.items p = .error .valueError → t.value p = .ok v →
      xattrLookup nm v = some s → WinRegFS.getxattr t p nm = .ok s) ∧
    (∀ v, t.items p = .error .valueError → t.value p = .ok v →
      xattrLookup nm v = none →
      WinRegFS.getxattr t p nm = .error (.fuseError .ENOATTR)) ∧
    (t.items p = .error .valueError →
      WinRegFS.listxattr t p =
        .ok ["user.registry.datatype", "user.registry.text"]) ∧
    (∀ l, t.items p = .ok l → WinRegFS.listxattr t p = .ok []) := by
  refine ⟨?_, ?_, ?_, ?_, ?_, ?_, ?_, ?_, ?_⟩
  · intro h
    simp [WinRegFS.getattr, h]
  · intro h
    simp [WinRegFS.read, h]
  · intro e h
    simp [WinRegFS.readdir, h]
  · intro l h
    simp [WinRegFS.getxattr, h]
  · intro hi hv
    simp [WinRegFS.getxattr, hi, hv]
  · intro v s hi hv hx
    simp [WinRegFS.getxattr, hi, hv, hx]
  · intro v hi hv hx
    simp [WinRegFS.getxattr, hi, hv, hx]
  · intro h
    simp [WinRegFS.listxattr, h]
  · intro l h
    simp [WinRegFS.listxattr, h]

theorem C8_error_conversion_witness :
    WinRegFS.getattr sampleSingle 1000 1000 "/does/not/exist" =
      .error (.fuseError .ENOENT) :=
  (C8_error_conversion sampleSingle "/does/not/exist" "x" 1000 1000 0 0).1 rfl

/-! ### C1: path decomposition -/

/-- C1: in multifile mode the path is stripped of leading and trailing
slashes and split into at most three parts (the third part captures all
remaining slash-joined text).  Zero parts list the group names; one part
lists the store names of the group, or fails with the routine error for an
unknown group; two parts list the root of the selected store with residual
`/`; three parts resolve to the pair of selected store slot and residual
subpath.  In single-file mode the decomposition is skipped and the whole
path is the residual against the one store. -/
theorem C1_path_decomposition (ae an : Bool)
    (hives : List (String × List (String × Option RegKey))) (r : RegKey)
    (p : String) :
    (pyStrip '/' p = "" →
      (RegistryTree.mk ae an (.multi hives)).items p =
        .ok (groupNames hives)) ∧
    (∀ g, pySplit '/' 2 (pyStrip '/' p) = [g] → g ≠ "" →
      (RegistryTree.mk ae an (.multi hives)).items p =
        (match lookupGroup hives g with
         | some grp => .ok (grp.map (·.1))
         | none => .error .valueError)) ∧
    (∀ g s, pySplit '/' 2 (pyStrip '/' p) = [g, s] →
      (RegistryTree.mk ae an (.multi hives)).items p =
        (match lookupStore hives g s with
         | some slot => itemsForReg ae slot "/"
         | none => .error .valueError)) ∧
    (∀ g s rest, pySplit '/' 2 (pyStrip '/' p) = [g, s, rest] →
      ((RegistryTree.mk ae an (.multi hives)).parseReg p =
        (match lookupStore hives g s with
         | some slot => .ok (slot, rest)
         | none => .error .valueError)) ∧
      ((RegistryTree.mk ae an (.multi hives)).items p =
        (match lookupStore hives g s with
         | some slot => itemsForReg ae slot rest
         | none => .error .valueError))) ∧
    ((RegistryTree.mk ae an (.single r)).parseReg p = .ok (some r, p) ∧
     (RegistryTree.mk ae an (.single r)).items p =
       itemsForReg ae (some r) p) := by
  refine ⟨?_, ?_, ?_, ?_, rfl, rfl⟩
  · intro h
    have hsp : pySplit '/' 2 (pyStrip '/' p) = [""] := by
      rw [h]
      rfl
    simp [RegistryTree.items, hsp]
  · intro g hs hg
    simp [RegistryTree.items, hs, hg]
  · intro g s hs
    simp [RegistryTree.items, hs]
  · intro g s rest hs
    constructor
    · simp [RegistryTree.parseReg, hs]
    · simp [RegistryTree.items, hs]

theorem C1_path_decomposition_witness :
    sampleMulti.parseReg "/HKLM/SYSTEM/Select/Current" =
      .ok (some kRoot, "Select/Current") := by
  have h := ((C1_path_decomposition true true (loadHives sampleDir kRoot)
    kRoot "/HKLM/SYSTEM/Select/Current").2.2.2.1 "HKLM" "SYSTEM"
    "Select/Current" (by decide)).1
  exact h.trans rfl

/-! ### C7: failed auxiliary hive slots -/

/-- C7 (counterexample): the claim fails as stated.  In `sampleMulti` the
`SAM` slot failed to load and is recorded as absent; operations on paths
selecting it raise `AttributeError` (Python calls `open` on `None`), which
is not the routine not-found error - an unknown store name, by contrast,
does give the routine error. -/
theorem C7_counterexample :
    sampleMulti.items "/HKLM/SAM" = .error .attributeError ∧
    sampleMulti.stat "/HKLM/SAM" = .error .attributeError ∧
    sampleMulti.key "/HKLM/SAM/CurrentControlSet" = .error .attributeError ∧
    sampleMulti.bytestr "/HKLM/SAM/CurrentControlSet" =
      .error .attributeError ∧
    sampleMulti.items "/HKLM/MISSING" = .error .valueError ∧
    (Err.attributeError ≠ Err.valueError) :=
  ⟨rfl, rfl, rfl, rfl, rfl, by decide⟩

/-- C7 (amended): an auxiliary load failure is recovered locally - loading
continues and the slot is recorded as absent - but afterwards every
operation on a path selecting that slot fails with the unhandled
attribute fault of calling a method on the absent store, not with the
routine path-not-found error. -/
theorem C7_failed_slot_behaviour (ae an : Bool) (d : ConfigDir)
    (sys : RegKey) (hives : List (String × List (String × Option RegKey)))
    (p q g s rest g2 s2 : String)
    (hsys : d.system = some sys) (hsam : d.sam = none)
    (hsplit : pySplit '/' 2 (pyStrip '/' p) = [g, s, rest])
    (hslot : lookupStore hives g s = some none)
    (hsplit2 : pySplit '/' 2 (pyStrip '/' q) = [g2, s2])
    (hslot2 : lookupStore hives g2 s2 = some none) :
    (RegistryTree.loadDir ae an d =
      .ok (RegistryTree.mk ae an (.multi (loadHives d sys)))) ∧
    (lookupStore (loadHives d sys) "HKLM" "SAM" = some none) ∧
    ((RegistryTree.mk ae an (.multi hives)).key p = .error .attributeError) ∧
    ((RegistryTree.mk ae an (.multi hives)).value p =
      .error .attributeError) ∧
    ((RegistryTree.mk ae an (.multi hives)).items p =
      .error .attributeError) ∧
    ((RegistryTree.mk ae an (.multi hives)).bytestr p =
      .error .attributeError) ∧
    ((RegistryTree.mk ae an (.multi hives)).stat p = .error .attributeError) ∧
    ((RegistryTree.mk ae an (.multi hives)).items q =
      .error .attributeError) ∧
    ((RegistryTree.mk ae an (.multi hives)).stat q =
      .error .attributeError) := by
  have hpr : (RegistryTree.mk ae an (.multi hives)).parseReg p =
      .ok (none, rest) := by
    simp [RegistryTree.parseReg, hsplit, hslot]
  have hval : (RegistryTree.mk ae an (.multi hives)).value p =
      .error .attributeError := by
    simp [RegistryTree.value, hpr]
  have hit : (RegistryTree.mk ae an (.multi hives)).items p =
      .error .attributeError := by
    rw [items_of_parse_ok hpr]
    rfl
  have hitq : (RegistryTree.mk ae an (.multi hives)).items q =
      .error .attributeError := by
    simp [RegistryTree.items, hsplit2, hslot2, itemsForReg]
  refine ⟨?_, ?_, ?_, hval, hit, ?_, ?_, hitq, ?_⟩
  · simp [RegistryTree.loadDir, hsys]
  · have h : lookupStore (loadHives d sys) "HKLM" "SAM" = some d.sam := rfl
    rw [h, hsam]
  · simp [RegistryTree.key, hpr]
  · simp [RegistryTree.bytestr, hval]
  · simp [RegistryTree.stat, hit]
  · simp [RegistryTree.stat, hitq]

theorem C7_failed_slot_behaviour_witness :
    sampleMulti.value "/HKLM/SECURITY/Policy" = .error .attributeError :=
  (C7_failed_slot_behaviour true true sampleDir kRoot
    (loadHives sampleDir kRoot) "/HKLM/SECURITY/Policy" "/HKU/.DEFAULT"
    "HKLM" "SECURITY" "Policy" "HKU" ".DEFAULT" rfl rfl (by decide) rfl
    (by decide) rfl).2.2.2.1

/-! ### C10: failed stores still occupy namespace slots -/

/-- C10: loading a config directory records a slot for every auxiliary
hive regardless of whether it loaded, so the group listings always contain
all recorded store names, and the root listing always contains the five
fixed group names. -/
theorem C10_failed_stores_listed (ae an : Bool) (d : ConfigDir)
    (sys : RegKey) (hsys : d.system = some sys) :
    RegistryTree.loadDir ae an d =
      .ok (RegistryTree.mk ae an (.multi (loadHives d sys))) ∧
    (RegistryTree.mk ae an (.multi (loadHives d sys))).items "/HKLM" =
      .ok ["SYSTEM", "SAM", "SECURITY", "SOFTWARE"] ∧
    (RegistryTree.mk ae an (.multi (loadHives d sys))).items "/HKU" =
      .ok [".DEFAULT"] ∧
    (RegistryTree.mk ae an (.multi (loadHives d sys))).items "/" =
      .ok ["HKCR", "HKCU", "HKLM", "HKU", "HKCC"] := by
  refine ⟨?_, rfl, rfl, rfl⟩
  simp [RegistryTree.loadDir, hsys]

theorem C10_failed_stores_listed_witness :
    sampleMulti.items "/HKLM" = .ok ["SYSTEM", "SAM", "SECURITY", "SOFTWARE"] :=
  (C10_failed_stores_listed true true sampleDir kRoot rfl).2.1
